import Mathlib

/-!
Verification development for the DAS maritime-surveillance Monte Carlo
business simulator (`monte_carlo_simulator/das_monte_carlo.py`).

Modelling conventions:
* Python floats are modelled as exact rationals (`ℚ`); Python ints as `ℤ`
  (customer counts, which the source keeps non-negative via `max(0, ...)`,
  are modelled as `ℕ`, where truncated subtraction is exactly `max(0, a-b)`).
* `numpy` random draws are modelled by an `Oracle`: an arbitrary stream of
  values indexed by a per-kind call counter, so that theorems quantify over
  every possible sequence of stochastic draws.  `np.random.seed(i)` is
  modelled by selecting the oracle of trial `i` from a seed-indexed family.
* Python's float power `**` (used only for price erosion) is transcendental
  and therefore kept abstract as the oracle field `rpow`; every theorem
  below holds for an arbitrary `rpow`.
* Python's `int(x)` conversion (truncation toward zero) is `ratTrunc`.
-/

set_option maxRecDepth 2000

namespace DasMonteCarlo

/-- Architecture deployment options (`ArchitectureOption` enum). -/
inductive ArchitectureOption where
  | OPTION_A_GPU_EDGE
  | OPTION_B_REGIONAL_DC
  | OPTION_C_CLOUD_ONLY
deriving DecidableEq

/-- User-controlled inputs (`SimulationInputs` dataclass). -/
structure SimulationInputs where
  architecture_option : ArchitectureOption
  series_a_funding : ℚ
  compression_error_threshold : ℚ
  initial_cables : ℤ
  target_cables_month_6 : ℤ
  target_cables_month_12 : ℤ
  target_cables_month_18 : ℤ
  pricing_port : ℚ
  pricing_naval : ℚ
  pricing_environmental : ℚ
  pricing_shipping : ℚ
  pricing_insurance : ℚ
  initial_team_size : ℤ
  team_growth_rate : ℚ
  cloud_credits_secured : ℚ
  simulation_months : ℤ

/-- Uncertain parameters (`StochasticParameters` dataclass). -/
structure StochasticParameters where
  detection_accuracy_mean : ℚ
  detection_accuracy_std : ℚ
  cac_port_mean : ℚ
  cac_port_std : ℚ
  cac_naval_mean : ℚ
  cac_naval_std : ℚ
  conversion_rate_port_mean : ℚ
  conversion_rate_port_std : ℚ
  conversion_rate_naval_mean : ℚ
  conversion_rate_naval_std : ℚ
  churn_rate_monthly_mean : ℚ
  churn_rate_monthly_std : ℚ
  cloud_cost_per_tb_mean : ℚ
  cloud_cost_per_tb_std : ℚ
  edge_capex_variation : ℚ
  salary_variation : ℚ
  cable_deployment_time_months_mean : ℚ
  cable_deployment_time_months_std : ℚ
  system_uptime_mean : ℚ
  system_uptime_std : ℚ
  competitive_pressure_annual : ℚ

/-- Customer ledger: one non-negative count per `CustomerSegment`, in the
fixed enum/dict order port, naval, environmental, shipping, insurance. -/
structure Ledger where
  port : ℕ
  naval : ℕ
  environmental : ℕ
  shipping : ℕ
  insurance : ℕ
deriving DecidableEq

/-- Per-role headcounts returned by `get_team_costs`. -/
structure RoleCounts where
  signal_processing_ml : ℤ
  data_engineering : ℤ
  cloud_devops : ℤ
  edge_hardware : ℤ
  product_engineering : ℤ
deriving DecidableEq

/-- Monthly cost breakdown dict appended to `costs_breakdown`. -/
structure CostsBreakdown where
  infrastructure : ℚ
  personnel : ℚ
  sales_marketing : ℚ
  support : ℚ
deriving DecidableEq

/-- Outputs tracked over time (`SimulationOutputs` dataclass). -/
structure SimulationOutputs where
  months : List ℕ
  cables_deployed : List ℤ
  customers_by_segment : List Ledger
  total_customers : List ℕ
  detection_accuracy : List ℚ
  detections_per_day : List ℤ
  system_uptime : List ℚ
  regional_datacenters : List ℕ
  team_size_total : List ℤ
  team_by_role : List RoleCounts
  revenue_monthly : List ℚ
  costs_monthly : List ℚ
  costs_breakdown : List CostsBreakdown
  gross_margin : List ℚ
  cash_remaining : List ℚ
  arr : List ℚ
  profitability_achieved : Bool
  profitability_month : Option ℕ
  series_b_qualified : Bool
  ran_out_of_cash : Bool
  failure_month : Option ℕ

/-- Fresh `SimulationOutputs` (the dataclass `field(default_factory=list)`
defaults). -/
def emptyOutputs : SimulationOutputs :=
  { months := [], cables_deployed := [], customers_by_segment := [],
    total_customers := [], detection_accuracy := [], detections_per_day := [],
    system_uptime := [], regional_datacenters := [], team_size_total := [],
    team_by_role := [], revenue_monthly := [], costs_monthly := [],
    costs_breakdown := [], gross_margin := [], cash_remaining := [], arr := [],
    profitability_achieved := false, profitability_month := none,
    series_b_qualified := false, ran_out_of_cash := false,
    failure_month := none }

/-- Source of stochastic draws for one trial.  `normal i μ σ` is the value of
the `i`-th `np.random.normal(μ, σ)` call, `binom i n p` the value of the
`i`-th `np.random.binomial(n, p)` call, and `rpow b e` abstracts the float
power `b ** e` (used for price erosion). -/
structure Oracle where
  normal : ℕ → ℚ → ℚ → ℚ
  binom : ℕ → ℤ → ℚ → ℕ
  rpow : ℚ → ℚ → ℚ

/-- Draw sequences that a real `numpy` generator can produce: a binomial
sample over `n` trials never exceeds `n`. -/
def Oracle.Valid (o : Oracle) : Prop :=
  ∀ i n p, o.binom i n p ≤ n.toNat

/-- Python `int(x)` on a float: truncation toward zero. -/
def ratTrunc (q : ℚ) : ℤ :=
  if 0 ≤ q then ⌊q⌋ else ⌈q⌉

/-- Mutable state threaded through one trial's month loop.
`enqueue_log` is a specification-only ghost trace: it records, for every
`deployment_queue.append` the source performs, the pair
(month at which the entry was enqueued, scheduled deployment month).
It is written exactly where the source appends to `deployment_queue` and
is read by no simulation step. -/
structure SimState where
  cash : ℚ
  cables : ℤ
  customers : Ledger
  team : ℤ
  datacenters : ℕ
  queue : List (ℤ × ℚ)
  enqueue_log : List (ℤ × ℤ)
  nCtr : ℕ
  bCtr : ℕ

def zeroLedger : Ledger := ⟨0, 0, 0, 0, 0⟩

def addLedger (a b : Ledger) : Ledger :=
  ⟨a.port + b.port, a.naval + b.naval, a.environmental + b.environmental,
   a.shipping + b.shipping, a.insurance + b.insurance⟩

/-- Python `sum(customers.values())`. -/
def ledgerTotal (l : Ledger) : ℕ :=
  l.port + l.naval + l.environmental + l.shipping + l.insurance

/-- Model of `get_architecture_costs`: returns (per-cable capex after the variation
draw, total monthly opex, next normal-draw counter).  Consumes exactly one
normal draw (`np.random.normal(1.0, edge_capex_variation)`), even when the
caller discards the capex component. -/
def get_architecture_costs (P : StochasticParameters) (o : Oracle)
    (arch : ArchitectureOption) (num_cables : ℤ) (n : ℕ) : ℚ × ℚ × ℕ :=
  let base : ℚ × ℚ × ℚ × ℚ :=
    match arch with
    | .OPTION_A_GPU_EDGE => (500000, 10800, 0, 4000 * (num_cables : ℚ))
    | .OPTION_B_REGIONAL_DC =>
        (350000, 2500, if num_cables ≥ 8 then 16700 else 0,
         4000 * (num_cables : ℚ))
    | .OPTION_C_CLOUD_ONLY => (250000, 2500, 0, 15000 * (num_cables : ℚ))
  let edge_capex_per_cable := base.1
  let edge_opex_monthly := base.2.1
  let datacenter_opex_monthly := base.2.2.1
  let cloud_opex_monthly := base.2.2.2
  let variation := o.normal n 1 P.edge_capex_variation
  let capex := edge_capex_per_cable * variation
  let total_opex := edge_opex_monthly * (num_cables : ℚ) +
    datacenter_opex_monthly + cloud_opex_monthly
  (capex, total_opex, n + 1)

/-- Model of `get_team_costs`: truncating per-role headcount split, five salary
variation draws (one per role, in dict order), total monthly payroll. -/
def get_team_costs (P : StochasticParameters) (o : Oracle)
    (team_size : ℤ) (n : ℕ) : ℚ × RoleCounts × ℕ :=
  let roles : RoleCounts :=
    ⟨ratTrunc ((team_size : ℚ) * 0.25), ratTrunc ((team_size : ℚ) * 0.20),
     ratTrunc ((team_size : ℚ) * 0.20), ratTrunc ((team_size : ℚ) * 0.15),
     ratTrunc ((team_size : ℚ) * 0.20)⟩
  let cost :=
    (200000 * o.normal n 1 P.salary_variation / 12) * (roles.signal_processing_ml : ℚ) +
    (170000 * o.normal (n + 1) 1 P.salary_variation / 12) * (roles.data_engineering : ℚ) +
    (160000 * o.normal (n + 2) 1 P.salary_variation / 12) * (roles.cloud_devops : ℚ) +
    (150000 * o.normal (n + 3) 1 P.salary_variation / 12) * (roles.edge_hardware : ℚ) +
    (165000 * o.normal (n + 4) 1 P.salary_variation / 12) * (roles.product_engineering : ℚ)
  (cost, roles, n + 5)

/-- Sales ramp `min(1.0, month / 12)` from `get_customer_acquisition`. -/
def sales_effectiveness (month : ℕ) : ℚ :=
  min 1 ((month : ℚ) / 12)

/-- Model of `get_customer_acquisition`: five conversion-rate normal draws (dict
literal order) followed by five binomial draws (enum order).  Returns the
newly acquired customers and the advanced draw counters. -/
def get_customer_acquisition (P : StochasticParameters) (o : Oracle)
    (month : ℕ) (cables_deployed : ℤ) (n b : ℕ) : Ledger × ℕ × ℕ :=
  let ramp := sales_effectiveness month
  let conv_port := max 0 (o.normal n P.conversion_rate_port_mean P.conversion_rate_port_std)
  let conv_naval := max 0 (o.normal (n + 1) P.conversion_rate_naval_mean P.conversion_rate_naval_std)
  let conv_env := max 0 (o.normal (n + 2) 0.30 0.10)
  let conv_ship := max 0 (o.normal (n + 3) 0.20 0.08)
  let conv_ins := max 0 (o.normal (n + 4) 0.15 0.08)
  let acquired : Ledger :=
    ⟨o.binom b (ratTrunc (4 * (cables_deployed : ℚ) * ramp)) conv_port,
     o.binom (b + 1) (ratTrunc (1 * (cables_deployed : ℚ) * ramp)) conv_naval,
     o.binom (b + 2) (ratTrunc (3 * (cables_deployed : ℚ) * ramp)) conv_env,
     o.binom (b + 3) (ratTrunc (2 * (cables_deployed : ℚ) * ramp)) conv_ship,
     o.binom (b + 4) (ratTrunc (2 * (cables_deployed : ℚ) * ramp)) conv_ins⟩
  (acquired, n + 5, b + 5)

/-- Monthly churn rate draw, clamped to `[0, 0.1]` (`apply_churn`). -/
def churnRateDraw (P : StochasticParameters) (o : Oracle) (n : ℕ) : ℚ :=
  max 0 (min 0.1 (o.normal n P.churn_rate_monthly_mean P.churn_rate_monthly_std))

/-- Model of `apply_churn`: one churn-rate draw then one binomial survival draw per
segment; each post-churn count is `max(0, count - churned)`, which for `ℕ`
counts is truncated subtraction. -/
def apply_churn (P : StochasticParameters) (o : Oracle)
    (customers : Ledger) (n b : ℕ) : Ledger × ℕ × ℕ :=
  let rate := churnRateDraw P o n
  let survived : Ledger :=
    ⟨customers.port - o.binom b (customers.port : ℤ) rate,
     customers.naval - o.binom (b + 1) (customers.naval : ℤ) rate,
     customers.environmental - o.binom (b + 2) (customers.environmental : ℤ) rate,
     customers.shipping - o.binom (b + 3) (customers.shipping : ℤ) rate,
     customers.insurance - o.binom (b + 4) (customers.insurance : ℤ) rate⟩
  (survived, n + 1, b + 5)

/-- Model of `calculate_revenue`: per-segment price times count, scaled by the
price-erosion factor `(1 - pressure) ** (month / 12)`. -/
def calculate_revenue (I : SimulationInputs) (P : StochasticParameters)
    (o : Oracle) (customers : Ledger) (month : ℕ) : ℚ :=
  let price_erosion := o.rpow (1 - P.competitive_pressure_annual) ((month : ℚ) / 12)
  I.pricing_port * (customers.port : ℚ) * price_erosion +
  I.pricing_naval * (customers.naval : ℚ) * price_erosion +
  I.pricing_environmental * (customers.environmental : ℚ) * price_erosion +
  I.pricing_shipping * (customers.shipping : ℚ) * price_erosion +
  I.pricing_insurance * (customers.insurance : ℚ) * price_erosion

/-- Model of `calculate_detections`: truncate base detections, perturb by one normal
draw, truncate again, floor at zero. -/
def calculate_detections (_P : StochasticParameters) (o : Oracle)
    (cables : ℤ) (accuracy : ℚ) (n : ℕ) : ℤ × ℕ :=
  let base_detections := cables * 50
  let detections := ratTrunc ((base_detections : ℚ) * accuracy)
  let perturbed := ratTrunc (o.normal n (detections : ℚ) ((detections : ℚ) * 0.1))
  (max 0 perturbed, n + 1)

/-- Deployment-planning inner loop (`run_single_simulation` lines 335-344):
for each of the `count` shortfall cables, draw a deployment time, schedule
at `month + int(draw)`, draw and pay the per-cable capex upfront, and append
the entry to the queue (and the ghost enqueue log). -/
def planDeployments (I : SimulationInputs) (P : StochasticParameters)
    (o : Oracle) (month : ℕ) :
    ℕ → ℚ → List (ℤ × ℚ) → List (ℤ × ℤ) → ℕ →
    ℚ × List (ℤ × ℚ) × List (ℤ × ℤ) × ℕ
  | 0, cash, queue, log, n => (cash, queue, log, n)
  | k + 1, cash, queue, log, n =>
      let deployment_time := o.normal n P.cable_deployment_time_months_mean
        P.cable_deployment_time_months_std
      let deploy_month := (month : ℤ) + ratTrunc deployment_time
      let ac := get_architecture_costs P o I.architecture_option 1 (n + 1)
      planDeployments I P o month k (cash - ac.1)
        (queue ++ [(deploy_month, ac.1)])
        (log ++ [((month : ℤ), deploy_month)]) ac.2.2

/-- Target cable count for the month: the sequential `if month >= 6/12/18`
overwrites in the source collapse to this nest. -/
def targetCables (I : SimulationInputs) (month : ℕ) : ℤ :=
  if month ≥ 18 then I.target_cables_month_18
  else if month ≥ 12 then I.target_cables_month_12
  else if month ≥ 6 then I.target_cables_month_6
  else I.initial_cables

/-- Body of one iteration of the month loop in `run_single_simulation`,
up to (but not including) the final `cash < 0` failure check.  Returns the
updated state and the outputs with this month's snapshot appended and the
profitability / Series-B flags updated. -/
def monthCore (I : SimulationInputs) (P : StochasticParameters) (o : Oracle)
    (month : ℕ) (st : SimState) (out : SimulationOutputs) :
    SimState × SimulationOutputs :=
  -- deployment settlement: entries with deploy_month ≤ month are removed
  -- and each counts as a newly deployed cable
  let due := st.queue.filter (fun e => decide (e.1 ≤ (month : ℤ)))
  let queue1 := st.queue.filter (fun e => !(decide (e.1 ≤ (month : ℤ))))
  let cables := st.cables + due.length
  -- deployment planning
  let target := targetCables I month
  let cables_to_deploy : ℤ := target - cables - queue1.length
  let plan :=
    if cables_to_deploy > 0 then
      planDeployments I P o month cables_to_deploy.toNat st.cash queue1
        st.enqueue_log st.nCtr
    else (st.cash, queue1, st.enqueue_log, st.nCtr)
  let cash1 := plan.1
  let queue2 := plan.2.1
  let log2 := plan.2.2.1
  let n1 := plan.2.2.2
  -- regional datacenter decision (Option B, 8+ cables, at most once)
  let dcFire : Bool :=
    I.architecture_option = ArchitectureOption.OPTION_B_REGIONAL_DC ∧
      cables ≥ 8 ∧ st.datacenters = 0
  let dc := if dcFire then 1 else st.datacenters
  let cash2 := if dcFire then cash1 - 2000000 else cash1
  -- customer acquisition
  let acq := get_customer_acquisition P o month cables n1 st.bCtr
  let customers1 := addLedger st.customers acq.1
  -- churn
  let ch := apply_churn P o customers1 acq.2.1 acq.2.2
  let customers2 := ch.1
  -- revenue
  let revenue := calculate_revenue I P o customers2 month
  -- costs
  let ac := get_architecture_costs P o I.architecture_option cables ch.2.1
  let infra_opex := ac.2.1
  let tc := get_team_costs P o st.team ac.2.2
  let team_cost := tc.1
  let sales_marketing_cost := 50000 + 5000 * (st.team : ℚ)
  let support_cost := 10000 * (cables : ℚ) * 0.05
  let total_costs := infra_opex + team_cost + sales_marketing_cost + support_cost
  -- cash update
  let cash3 := cash2 + revenue - total_costs
  -- technical metrics
  let n5 := tc.2.2
  let detection_accuracy :=
    max 0.8 (min 1 (o.normal n5 P.detection_accuracy_mean P.detection_accuracy_std))
  let system_uptime :=
    max 0.9 (min 1 (o.normal (n5 + 1) P.system_uptime_mean P.system_uptime_std))
  let det := calculate_detections P o cables detection_accuracy (n5 + 2)
  -- team growth
  let team2 :=
    if month > 0 ∧ month % 6 = 0 then ratTrunc ((st.team : ℚ) * I.team_growth_rate)
    else st.team
  let gross_margin := if revenue > 0 then (revenue - total_costs) / revenue else -1
  let profFire : Bool :=
    out.profitability_achieved = false ∧ gross_margin > 0.7 ∧ revenue > total_costs
  let seriesBFire : Bool :=
    revenue * 12 > 30000000 ∧ gross_margin > 0.6 ∧ cables ≥ 15
  let out' : SimulationOutputs :=
    { months := out.months ++ [month],
      cables_deployed := out.cables_deployed ++ [cables],
      customers_by_segment := out.customers_by_segment ++ [customers2],
      total_customers := out.total_customers ++ [ledgerTotal customers2],
      detection_accuracy := out.detection_accuracy ++ [detection_accuracy],
      detections_per_day := out.detections_per_day ++ [det.1],
      system_uptime := out.system_uptime ++ [system_uptime],
      regional_datacenters := out.regional_datacenters ++ [dc],
      team_size_total := out.team_size_total ++ [team2],
      team_by_role := out.team_by_role ++ [tc.2.1],
      revenue_monthly := out.revenue_monthly ++ [revenue],
      costs_monthly := out.costs_monthly ++ [total_costs],
      costs_breakdown := out.costs_breakdown ++
        [⟨infra_opex, team_cost, sales_marketing_cost, support_cost⟩],
      gross_margin := out.gross_margin ++ [gross_margin],
      cash_remaining := out.cash_remaining ++ [cash3],
      arr := out.arr ++ [revenue * 12],
      profitability_achieved := if profFire then true else out.profitability_achieved,
      profitability_month := if profFire then some month else out.profitability_month,
      series_b_qualified := if seriesBFire then true else out.series_b_qualified,
      ran_out_of_cash := out.ran_out_of_cash,
      failure_month := out.failure_month }
  let st' : SimState :=
    { cash := cash3, cables := cables, customers := customers2, team := team2,
      datacenters := dc, queue := queue2, enqueue_log := log2,
      nCtr := det.2, bCtr := ch.2.2 }
  (st', out')

/-- One full month iteration: `monthCore` followed by the `cash < 0` failure
check.  The `Bool` is the loop-`break` signal. -/
def monthStep (I : SimulationInputs) (P : StochasticParameters) (o : Oracle)
    (month : ℕ) (st : SimState) (out : SimulationOutputs) :
    SimState × SimulationOutputs × Bool :=
  let r := monthCore I P o month st out
  if r.1.cash < 0 then
    (r.1, { r.2 with ran_out_of_cash := true, failure_month := some month }, true)
  else (r.1, r.2, false)

/-- The month loop of `run_single_simulation`, over the list of month
indices still to simulate; stops early when a month signals `break`. -/
def simLoop (I : SimulationInputs) (P : StochasticParameters) (o : Oracle) :
    List ℕ → SimState → SimulationOutputs → SimState × SimulationOutputs
  | [], st, out => (st, out)
  | m :: rest, st, out =>
      if (monthStep I P o m st out).2.2 then
        ((monthStep I P o m st out).1, (monthStep I P o m st out).2.1)
      else
        simLoop I P o rest (monthStep I P o m st out).1 (monthStep I P o m st out).2.1

/-- Initial trial state: cash after funding, cloud credits and the upfront
capex for the initial cables (one capex-variation draw). -/
def initState (I : SimulationInputs) (P : StochasticParameters) (o : Oracle) :
    SimState :=
  let cash0 := I.series_a_funding - I.cloud_credits_secured
  let ac := get_architecture_costs P o I.architecture_option 1 0
  { cash := cash0 - ac.1 * (I.initial_cables : ℚ),
    cables := I.initial_cables, customers := zeroLedger,
    team := I.initial_team_size, datacenters := 0, queue := [],
    enqueue_log := [], nCtr := ac.2.2, bCtr := 0 }

/-- Model of `run_single_simulation`, also returning the final internal state (whose
ghost `enqueue_log` collects every queue insertion of the trial).  A
negative `simulation_months` makes `range` empty, exactly as in Python. -/
def run_single_simulation_full (I : SimulationInputs)
    (P : StochasticParameters) (o : Oracle) : SimState × SimulationOutputs :=
  simLoop I P o (List.range I.simulation_months.toNat) (initState I P o)
    emptyOutputs

/-- Model of `run_single_simulation(seed)`: the trial's `SimulationOutputs`. -/
def run_single_simulation (I : SimulationInputs) (P : StochasticParameters)
    (o : Oracle) : SimulationOutputs :=
  (run_single_simulation_full I P o).2

/-- Model of `run_monte_carlo`: trial `i` runs with the oracle determined by seed `i`
(`np.random.seed(i)` resets the global stream to a function of `i` alone). -/
def run_monte_carlo (I : SimulationInputs) (P : StochasticParameters)
    (F : ℕ → Oracle) (num_simulations : ℕ) : List SimulationOutputs :=
  (List.range num_simulations).map (fun i => run_single_simulation I P (F i))

/-- Python's `sum(r.profitability_month for r in sims)`: `none` models the
`TypeError` raised if any summand is `None`. -/
def sum_profitability_months : List SimulationOutputs → Option ℕ
  | [] => some 0
  | r :: rest =>
      match r.profitability_month, sum_profitability_months rest with
      | some m, some s => some (m + s)
      | _, _ => none

/-- Fragment of `analyze_results` (lines 462-464) computing the average
months to profitability.  The outer `Option` is `none` exactly when Python
would raise (summing a `None` `profitability_month`); the inner `Option` is
the `None` result when no trial achieved profitability. -/
def avg_months_to_profitability (results : List SimulationOutputs) :
    Option (Option ℚ) :=
  let profitable_sims := results.filter (·.profitability_achieved)
  if profitable_sims.isEmpty then some none
  else
    match sum_profitability_months profitable_sims with
    | none => none
    | some s => some (some ((s : ℚ) / (profitable_sims.length : ℚ)))

/-- Modelled from the spec: "average months-to-profitability across only the
trials that achieved it (undefined/absent if none did)" — the arithmetic
mean of `profitability_month` over exactly the trials whose
`profitability_achieved` flag is true. -/
def spec_avg_months_to_profitability (results : List SimulationOutputs) :
    Option ℚ :=
  let achieved := results.filter (·.profitability_achieved)
  if achieved.isEmpty then none
  else
    let ms : List ℕ := achieved.filterMap (·.profitability_month)
    some ((ms.map (Nat.cast : ℕ → ℚ)).sum / (ms.length : ℚ))

/-! Concrete fixtures used by witnesses and counterexamples: the source's
default configuration and a few deterministic oracles. -/

/-- Default `SimulationInputs` values from the source dataclass. -/
def default_inputs : SimulationInputs :=
  { architecture_option := .OPTION_C_CLOUD_ONLY, series_a_funding := 10000000,
    compression_error_threshold := 0.1, initial_cables := 3,
    target_cables_month_6 := 5, target_cables_month_12 := 15,
    target_cables_month_18 := 30, pricing_port := 35000,
    pricing_naval := 500000, pricing_environmental := 10000,
    pricing_shipping := 10000, pricing_insurance := 25000,
    initial_team_size := 5, team_growth_rate := 1.5,
    cloud_credits_secured := 250000, simulation_months := 24 }

/-- Default `StochasticParameters` values from the source dataclass. -/
def default_params : StochasticParameters :=
  { detection_accuracy_mean := 0.97, detection_accuracy_std := 0.02,
    cac_port_mean := 50000, cac_port_std := 15000,
    cac_naval_mean := 200000, cac_naval_std := 50000,
    conversion_rate_port_mean := 0.25, conversion_rate_port_std := 0.10,
    conversion_rate_naval_mean := 0.15, conversion_rate_naval_std := 0.05,
    churn_rate_monthly_mean := 0.02, churn_rate_monthly_std := 0.01,
    cloud_cost_per_tb_mean := 50, cloud_cost_per_tb_std := 10,
    edge_capex_variation := 0.15, salary_variation := 0.20,
    cable_deployment_time_months_mean := 2, cable_deployment_time_months_std := 0.5,
    system_uptime_mean := 0.995, system_uptime_std := 0.005,
    competitive_pressure_annual := 0.10 }

/-- Oracle whose normal draws are all `0` and whose binomial draws are all
`0` (a possible, if unlikely, realization of the numpy streams). -/
def zeroOracle : Oracle :=
  { normal := fun _ _ _ => 0, binom := fun _ _ _ => 0, rpow := fun _ _ => 1 }

/-- Oracle whose normal draws are all `-2`: in particular every cable
deployment-time draw is negative. -/
def negOracle : Oracle :=
  { normal := fun _ _ _ => -2, binom := fun _ _ _ => 0, rpow := fun _ _ => 1 }

/-- Configuration with no funding at all: the trial fails at month 0. -/
def brokeInputs : SimulationInputs :=
  { default_inputs with series_a_funding := 0, cloud_credits_secured := 0 }

/-- Configuration for the zero-growth scenario exactly as the claim words
it: every deployment target equals the initial cable count and the team
growth rate is zero, over a 7-month horizon. -/
def zeroGrowthInputs : SimulationInputs :=
  { default_inputs with
    target_cables_month_6 := 3
    target_cables_month_12 := 3
    target_cables_month_18 := 3
    team_growth_rate := 0
    simulation_months := 7 }

/-- Configuration that enqueues exactly one cable deployment at month 6. -/
def oneDeployInputs : SimulationInputs :=
  { default_inputs with
    initial_cables := 0
    target_cables_month_6 := 1
    simulation_months := 7 }

/-! Helper lemmas about the embedding. -/

theorem ratTrunc_nonneg {q : ℚ} (h : 0 ≤ q) : 0 ≤ ratTrunc q := by
  rw [ratTrunc, if_pos h]
  exact Int.floor_nonneg.mpr h

theorem ratTrunc_intCast (n : ℤ) : ratTrunc (n : ℚ) = n := by
  rw [ratTrunc]
  split <;> simp

/-- The failure check does not change the trial state computed by the month
body. -/
theorem monthStep_state (I : SimulationInputs) (P : StochasticParameters)
    (o : Oracle) (m : ℕ) (st : SimState) (out : SimulationOutputs) :
    (monthStep I P o m st out).1 = (monthCore I P o m st out).1 := by
  rw [monthStep]
  split <;> rfl

theorem monthStep_out_detection_accuracy (I : SimulationInputs)
    (P : StochasticParameters) (o : Oracle) (m : ℕ) (st : SimState)
    (out : SimulationOutputs) :
    (monthStep I P o m st out).2.1.detection_accuracy =
      (monthCore I P o m st out).2.detection_accuracy := by
  rw [monthStep]
  split <;> rfl

theorem monthStep_out_system_uptime (I : SimulationInputs)
    (P : StochasticParameters) (o : Oracle) (m : ℕ) (st : SimState)
    (out : SimulationOutputs) :
    (monthStep I P o m st out).2.1.system_uptime =
      (monthCore I P o m st out).2.system_uptime := by
  rw [monthStep]
  split <;> rfl

theorem monthStep_out_revenue_monthly (I : SimulationInputs)
    (P : StochasticParameters) (o : Oracle) (m : ℕ) (st : SimState)
    (out : SimulationOutputs) :
    (monthStep I P o m st out).2.1.revenue_monthly =
      (monthCore I P o m st out).2.revenue_monthly := by
  rw [monthStep]
  split <;> rfl

theorem monthStep_out_costs_monthly (I : SimulationInputs)
    (P : StochasticParameters) (o : Oracle) (m : ℕ) (st : SimState)
    (out : SimulationOutputs) :
    (monthStep I P o m st out).2.1.costs_monthly =
      (monthCore I P o m st out).2.costs_monthly := by
  rw [monthStep]
  split <;> rfl

theorem monthStep_out_gross_margin (I : SimulationInputs)
    (P : StochasticParameters) (o : Oracle) (m : ℕ) (st : SimState)
    (out : SimulationOutputs) :
    (monthStep I P o m st out).2.1.gross_margin =
      (monthCore I P o m st out).2.gross_margin := by
  rw [monthStep]
  split <;> rfl

theorem monthStep_out_cables_deployed (I : SimulationInputs)
    (P : StochasticParameters) (o : Oracle) (m : ℕ) (st : SimState)
    (out : SimulationOutputs) :
    (monthStep I P o m st out).2.1.cables_deployed =
      (monthCore I P o m st out).2.cables_deployed := by
  rw [monthStep]
  split <;> rfl

theorem monthStep_out_team_size_total (I : SimulationInputs)
    (P : StochasticParameters) (o : Oracle) (m : ℕ) (st : SimState)
    (out : SimulationOutputs) :
    (monthStep I P o m st out).2.1.team_size_total =
      (monthCore I P o m st out).2.team_size_total := by
  rw [monthStep]
  split <;> rfl

theorem monthStep_out_series_b (I : SimulationInputs)
    (P : StochasticParameters) (o : Oracle) (m : ℕ) (st : SimState)
    (out : SimulationOutputs) :
    (monthStep I P o m st out).2.1.series_b_qualified =
      (monthCore I P o m st out).2.series_b_qualified := by
  rw [monthStep]
  split <;> rfl

/-- Generic invariant-preservation lemma for the month loop: any predicate
on the state and the outputs preserved by one `monthStep` holds of the
loop's result (the loop either runs all months or stops at a `break`, and
in both cases the last step's state and outputs are returned). -/
theorem simLoop_inv (I : SimulationInputs) (P : StochasticParameters)
    (o : Oracle) (S : SimState → Prop) (R : SimulationOutputs → Prop)
    (hstep : ∀ m st out, S st → R out →
      S (monthStep I P o m st out).1 ∧ R (monthStep I P o m st out).2.1) :
    ∀ ms st out, S st → R out →
      S (simLoop I P o ms st out).1 ∧ R (simLoop I P o ms st out).2 := by
  intro ms
  induction ms with
  | nil => intro st out hs hr; exact ⟨hs, hr⟩
  | cons m rest ih =>
      intro st out hs hr
      rw [simLoop]
      split
      · exact hstep m st out hs hr
      · exact ih _ _ (hstep m st out hs hr).1 (hstep m st out hs hr).2

theorem get?_append_left {α : Type} {l l' : List α} {i : ℕ} {a : α}
    (h : l.get? i = some a) : (l ++ l').get? i = some a := by
  have hlen := (List.get?_eq_some.mp h).1
  rw [List.get?_eq_getElem?] at h ⊢
  rw [List.getElem?_append_left hlen]
  exact h

theorem ite_eq_true_of_eq_true {c : Prop} [Decidable c] {b : Bool}
    (h : b = true) : (if c then true else b) = true := by
  split
  · rfl
  · exact h

/-! Claim theorems. -/

/-- C1: the spec requires `run_monte_carlo` / the simulator constructor to
reject invalid configurations (negative horizon, negative pricing) before
any trial starts.  The code performs no validation at all: with a negative
simulation horizon it runs the requested trial and returns a degenerate
empty trajectory, and with a negative price it runs the trial normally.
This theorem evaluates the engine at both failing inputs. -/
theorem c1_invalid_config_runs_anyway :
    run_monte_carlo { default_inputs with simulation_months := -1 }
        default_params (fun _ => zeroOracle) 1 = [emptyOutputs] ∧
    (run_monte_carlo { default_inputs with pricing_naval := -500000, simulation_months := 1 }
        default_params (fun _ => zeroOracle) 1).map (fun r => r.months) = [[0]] := by
  constructor
  · with_unfolding_all rfl
  · with_unfolding_all rfl

/-- C4: determinism of the Monte Carlo driver.  Trial `i` is a pure
function of the inputs, the parameters and the seed-indexed oracle of
trial `i` alone, so two runs with the same trial count whose seed-to-stream
mappings agree on the first `n` seeds produce identical lists of
`SimulationOutputs`, trial for trial. -/
theorem c4_determinism (I : SimulationInputs) (P : StochasticParameters)
    (F G : ℕ → Oracle) (n : ℕ) (h : ∀ i, i < n → F i = G i) :
    run_monte_carlo I P F n = run_monte_carlo I P G n ∧
    (∀ i, i < n → (run_monte_carlo I P F n).get? i =
      some (run_single_simulation I P (F i))) := by
  constructor
  · rw [run_monte_carlo, run_monte_carlo]
    apply List.map_congr_left
    intro i hi
    rw [h i (List.mem_range.mp hi)]
  · intro i hi
    rw [run_monte_carlo, List.get?_eq_getElem?, List.getElem?_map,
      List.getElem?_range hi]
    rfl

/-- C4 witness: two seed families that agree on seed 0 give identical
singleton runs of the driver, and trial 0 is the single simulation under
oracle 0. -/
theorem c4_witness :
    run_monte_carlo default_inputs default_params (fun _ => zeroOracle) 1 =
      run_monte_carlo default_inputs default_params
        (fun i => if i < 5 then zeroOracle else negOracle) 1 ∧
    (∀ i, i < 1 →
      (run_monte_carlo default_inputs default_params (fun _ => zeroOracle) 1).get? i =
        some (run_single_simulation default_inputs default_params zeroOracle)) := by
  have h := c4_determinism default_inputs default_params (fun _ => zeroOracle)
    (fun i => if i < 5 then zeroOracle else negOracle) 1
    (by intro i hi; interval_cases i; rfl)
  exact ⟨h.1, fun i hi => h.2 i hi⟩

/-- C8: the Series-B qualification flag is monotone within a trial: the
month body only ever sets it to true, and the month loop preserves it, so
once it is true after some month it stays true through every later month
of the trial. -/
theorem c8_series_b_persists (I : SimulationInputs) (P : StochasticParameters)
    (o : Oracle) :
    (∀ m st out, out.series_b_qualified = true →
      (monthStep I P o m st out).2.1.series_b_qualified = true) ∧
    (∀ ms st out, out.series_b_qualified = true →
      (simLoop I P o ms st out).2.series_b_qualified = true) := by
  have hstep : ∀ m st out, out.series_b_qualified = true →
      (monthStep I P o m st out).2.1.series_b_qualified = true := by
    intro m st out hout
    rw [monthStep_out_series_b]
    exact ite_eq_true_of_eq_true hout
  refine ⟨hstep, fun ms st out hout => ?_⟩
  exact (simLoop_inv I P o (fun _ => True) (fun r => r.series_b_qualified = true)
    (fun m st' out' _ hr => ⟨trivial, hstep m st' out' hr⟩) ms st out trivial hout).2

/-- The month body appends exactly one clamped detection-accuracy value. -/
theorem monthCore_acc (I : SimulationInputs) (P : StochasticParameters)
    (o : Oracle) (m : ℕ) (st : SimState) (out : SimulationOutputs) :
    ∃ v, (monthCore I P o m st out).2.detection_accuracy =
      out.detection_accuracy ++ [max 0.8 (min 1 v)] :=
  ⟨_, rfl⟩

/-- The month body appends exactly one clamped system-uptime value. -/
theorem monthCore_up (I : SimulationInputs) (P : StochasticParameters)
    (o : Oracle) (m : ℕ) (st : SimState) (out : SimulationOutputs) :
    ∃ v, (monthCore I P o m st out).2.system_uptime =
      out.system_uptime ++ [max 0.9 (min 1 v)] :=
  ⟨_, rfl⟩

/-- C6: clamping.  Every recorded detection-accuracy value lies in
`[0.8, 1]`, every recorded system-uptime value lies in `[0.9, 1]`, and the
churn rate `apply_churn` derives from any draw lies in `[0, 0.1]`, for
every configuration and every sequence of stochastic draws. -/
theorem c6_clamping (I : SimulationInputs) (P : StochasticParameters)
    (o : Oracle) :
    (∀ x ∈ (run_single_simulation I P o).detection_accuracy, 0.8 ≤ x ∧ x ≤ 1) ∧
    (∀ x ∈ (run_single_simulation I P o).system_uptime, 0.9 ≤ x ∧ x ≤ 1) ∧
    (∀ n, 0 ≤ churnRateDraw P o n ∧ churnRateDraw P o n ≤ 0.1) := by
  have hstep : ∀ m st out,
      (∀ x ∈ out.detection_accuracy, 0.8 ≤ x ∧ x ≤ 1) ∧
        (∀ x ∈ out.system_uptime, 0.9 ≤ x ∧ x ≤ 1) →
      (∀ x ∈ (monthStep I P o m st out).2.1.detection_accuracy, 0.8 ≤ x ∧ x ≤ 1) ∧
        (∀ x ∈ (monthStep I P o m st out).2.1.system_uptime, 0.9 ≤ x ∧ x ≤ 1) := by
    intro m st out hr
    constructor
    · rw [monthStep_out_detection_accuracy]
      obtain ⟨v, hv⟩ := monthCore_acc I P o m st out
      rw [hv]
      intro x hx
      rcases List.mem_append.mp hx with h | h
      · exact hr.1 x h
      · rcases List.mem_singleton.mp h with rfl
        exact ⟨le_max_left _ _, max_le (by norm_num) (min_le_left _ _)⟩
    · rw [monthStep_out_system_uptime]
      obtain ⟨v, hv⟩ := monthCore_up I P o m st out
      rw [hv]
      intro x hx
      rcases List.mem_append.mp hx with h | h
      · exact hr.2 x h
      · rcases List.mem_singleton.mp h with rfl
        exact ⟨le_max_left _ _, max_le (by norm_num) (min_le_left _ _)⟩
  have main := simLoop_inv I P o (fun _ => True)
    (fun r => (∀ x ∈ r.detection_accuracy, 0.8 ≤ x ∧ x ≤ 1) ∧
      (∀ x ∈ r.system_uptime, 0.9 ≤ x ∧ x ≤ 1))
    (fun m st out _ hr => ⟨trivial, hstep m st out hr⟩)
    (List.range I.simulation_months.toNat) (initState I P o) emptyOutputs
    trivial ⟨by intro x hx; simp [emptyOutputs] at hx,
      by intro x hx; simp [emptyOutputs] at hx⟩
  refine ⟨(main.2).1, (main.2).2, fun n => ?_⟩
  rw [churnRateDraw]
  exact ⟨le_max_left _ _, max_le (by norm_num) (min_le_left _ _)⟩

/-- C6 witness: in the month-0 trajectory of the unfunded configuration
under the all-zero oracle, accuracy `4/5` and uptime `9/10` are recorded
and satisfy the bounds, and the churn-rate draw 0 is within `[0, 0.1]`. -/
theorem c6_witness :
    ((0.8 : ℚ) ≤ 4 / 5 ∧ (4 / 5 : ℚ) ≤ 1) ∧
    ((0.9 : ℚ) ≤ 9 / 10 ∧ (9 / 10 : ℚ) ≤ 1) ∧
    (0 ≤ churnRateDraw default_params zeroOracle 0 ∧
      churnRateDraw default_params zeroOracle 0 ≤ 0.1) := by
  have h := c6_clamping brokeInputs default_params zeroOracle
  exact ⟨h.1 (4 / 5) (by with_unfolding_all decide),
    h.2.1 (9 / 10) (by with_unfolding_all decide), h.2.2 0⟩

/-- The month body appends the revenue, the total cost, and the gross
margin of the month, the latter the guarded quotient of the former two. -/
theorem monthCore_margin (I : SimulationInputs) (P : StochasticParameters)
    (o : Oracle) (m : ℕ) (st : SimState) (out : SimulationOutputs) :
    ∃ r c, (monthCore I P o m st out).2.revenue_monthly =
        out.revenue_monthly ++ [r] ∧
      (monthCore I P o m st out).2.costs_monthly = out.costs_monthly ++ [c] ∧
      (monthCore I P o m st out).2.gross_margin =
        out.gross_margin ++ [if r > 0 then (r - c) / r else -1] :=
  ⟨_, _, rfl, rfl, rfl⟩

/-- C7: for every month of every trial, the recorded gross margin is
`(revenue - cost) / revenue` when that month's recorded revenue is
positive and the `-1` sentinel otherwise: the gross-margin sequence is
exactly the pointwise guarded quotient of the revenue and cost sequences,
so the division is never performed with zero revenue. -/
theorem c7_gross_margin (I : SimulationInputs) (P : StochasticParameters)
    (o : Oracle) :
    (run_single_simulation I P o).revenue_monthly.length =
      (run_single_simulation I P o).costs_monthly.length ∧
    (run_single_simulation I P o).gross_margin =
      List.zipWith (fun r c => if r > 0 then (r - c) / r else -1)
        (run_single_simulation I P o).revenue_monthly
        (run_single_simulation I P o).costs_monthly := by
  have hstep : ∀ m st out,
      (out.gross_margin = List.zipWith
          (fun a b => if a > 0 then (a - b) / a else -1)
          out.revenue_monthly out.costs_monthly ∧
        out.revenue_monthly.length = out.costs_monthly.length) →
      ((monthStep I P o m st out).2.1.gross_margin = List.zipWith
          (fun a b => if a > 0 then (a - b) / a else -1)
          (monthStep I P o m st out).2.1.revenue_monthly
          (monthStep I P o m st out).2.1.costs_monthly ∧
        (monthStep I P o m st out).2.1.revenue_monthly.length =
          (monthStep I P o m st out).2.1.costs_monthly.length) := by
    intro m st out hr'
    rw [monthStep_out_gross_margin, monthStep_out_revenue_monthly,
      monthStep_out_costs_monthly]
    obtain ⟨a, b, h1, h2, h3⟩ := monthCore_margin I P o m st out
    rw [h1, h2, h3, List.zipWith_append _ _ _ _ _ hr'.2, hr'.1]
    exact ⟨rfl, by simp [hr'.2]⟩
  have main := simLoop_inv I P o (fun _ => True)
    (fun out => out.gross_margin = List.zipWith
        (fun a b => if a > 0 then (a - b) / a else -1)
        out.revenue_monthly out.costs_monthly ∧
      out.revenue_monthly.length = out.costs_monthly.length)
    (fun m st out _ h => ⟨trivial, hstep m st out h⟩)
    (List.range I.simulation_months.toNat) (initState I P o) emptyOutputs
    trivial ⟨rfl, rfl⟩
  rw [run_single_simulation, run_single_simulation_full]
  exact ⟨main.2.2, main.2.1⟩

/-- Inputs identical to `zeroGrowthInputs` except that the team growth
multiplier is `1` (a no-op growth step) instead of `0`. -/
def noGrowthInputs : SimulationInputs :=
  { zeroGrowthInputs with team_growth_rate := 1 }

/-- When every deployment target equals the initial cable count, the queue
stays empty and the cable count never moves; when the growth multiplier is
`1`, the 6-monthly growth step leaves the team unchanged.  One month body
therefore records the initial cable count and team size again. -/
theorem monthCore_const (I : SimulationInputs) (P : StochasticParameters)
    (o : Oracle) (m : ℕ) (st : SimState) (out : SimulationOutputs)
    (h6 : I.target_cables_month_6 = I.initial_cables)
    (h12 : I.target_cables_month_12 = I.initial_cables)
    (h18 : I.target_cables_month_18 = I.initial_cables)
    (hg : I.team_growth_rate = 1)
    (hc : st.cables = I.initial_cables) (hq : st.queue = [])
    (ht : st.team = I.initial_team_size) :
    (monthCore I P o m st out).1.cables = I.initial_cables ∧
    (monthCore I P o m st out).1.queue = [] ∧
    (monthCore I P o m st out).1.team = I.initial_team_size ∧
    (monthCore I P o m st out).2.cables_deployed =
      out.cables_deployed ++ [I.initial_cables] ∧
    (monthCore I P o m st out).2.team_size_total =
      out.team_size_total ++ [I.initial_team_size] := by
  have htgt : targetCables I m = I.initial_cables := by
    rw [targetCables, h6, h12, h18]
    split
    · rfl
    · split
      · rfl
      · split <;> rfl
  obtain ⟨cash, cables, cust, team, dc, queue, log, nc, bc⟩ := st
  simp only at hc hq ht
  subst hc hq ht
  simp only [monthCore, htgt, hg, List.filter_nil, List.length_nil,
    Nat.cast_zero, add_zero, sub_zero, sub_self, gt_iff_lt, lt_self_iff_false,
    if_false, mul_one, ratTrunc_intCast, ite_self]
  exact ⟨trivial, trivial, trivial, trivial, trivial⟩

/-- C5 (amended): with all deployment targets equal to the initial cable
count and team growth multiplier `1` (no growth), every recorded
deployed-cable count and every recorded team size equals its initial
value, in every trial under every sequence of draws. -/
theorem c5_zero_growth_constant (I : SimulationInputs)
    (P : StochasticParameters) (o : Oracle)
    (h6 : I.target_cables_month_6 = I.initial_cables)
    (h12 : I.target_cables_month_12 = I.initial_cables)
    (h18 : I.target_cables_month_18 = I.initial_cables)
    (hg : I.team_growth_rate = 1) :
    (∀ x ∈ (run_single_simulation I P o).cables_deployed, x = I.initial_cables) ∧
    (∀ x ∈ (run_single_simulation I P o).team_size_total, x = I.initial_team_size) := by
  have hstep : ∀ m st out,
      (st.cables = I.initial_cables ∧ st.queue = [] ∧ st.team = I.initial_team_size) →
      ((∀ x ∈ out.cables_deployed, x = I.initial_cables) ∧
        (∀ x ∈ out.team_size_total, x = I.initial_team_size)) →
      ((monthStep I P o m st out).1.cables = I.initial_cables ∧
        (monthStep I P o m st out).1.queue = [] ∧
        (monthStep I P o m st out).1.team = I.initial_team_size) ∧
      ((∀ x ∈ (monthStep I P o m st out).2.1.cables_deployed, x = I.initial_cables) ∧
        (∀ x ∈ (monthStep I P o m st out).2.1.team_size_total, x = I.initial_team_size)) := by
    intro m st out hs hr
    obtain ⟨e1, e2, e3, e4, e5⟩ := monthCore_const I P o m st out h6 h12 h18 hg
      hs.1 hs.2.1 hs.2.2
    rw [monthStep_state, monthStep_out_cables_deployed, monthStep_out_team_size_total]
    refine ⟨⟨e1, e2, e3⟩, ?_, ?_⟩
    · rw [e4]
      intro x hx
      rcases List.mem_append.mp hx with h | h
      · exact hr.1 x h
      · exact List.mem_singleton.mp h
    · rw [e5]
      intro x hx
      rcases List.mem_append.mp hx with h | h
      · exact hr.2 x h
      · exact List.mem_singleton.mp h
  have main := simLoop_inv I P o
    (fun st => st.cables = I.initial_cables ∧ st.queue = [] ∧
      st.team = I.initial_team_size)
    (fun out => (∀ x ∈ out.cables_deployed, x = I.initial_cables) ∧
      (∀ x ∈ out.team_size_total, x = I.initial_team_size))
    hstep (List.range I.simulation_months.toNat) (initState I P o) emptyOutputs
    ⟨rfl, rfl, rfl⟩
    ⟨by intro x hx; simp [emptyOutputs] at hx,
      by intro x hx; simp [emptyOutputs] at hx⟩
  rw [run_single_simulation, run_single_simulation_full]
  exact main.2

/-- C5 counterexample: the claim reads "team growth rate is zero", and with
`team_growth_rate = 0` (and all targets equal to the initial count) the
source multiplies the team size by `0` at month 6, so the recorded team
size at month 6 is `0`, not the initial `5`: the claimed constancy fails. -/
theorem c5_counterexample :
    zeroGrowthInputs.target_cables_month_6 = zeroGrowthInputs.initial_cables ∧
    zeroGrowthInputs.target_cables_month_12 = zeroGrowthInputs.initial_cables ∧
    zeroGrowthInputs.target_cables_month_18 = zeroGrowthInputs.initial_cables ∧
    zeroGrowthInputs.team_growth_rate = 0 ∧
    zeroGrowthInputs.initial_team_size = 5 ∧
    (run_single_simulation zeroGrowthInputs default_params
      zeroOracle).team_size_total.get? 6 = some 0 ∧
    (0 : ℤ) ≠ 5 := by
  refine ⟨rfl, rfl, rfl, rfl, rfl, ?_, by decide⟩
  with_unfolding_all decide

/-- C5 witness: the amended theorem applied to the growth-multiplier-one
configuration under the all-zero oracle. -/
theorem c5_witness :
    (∀ x ∈ (run_single_simulation noGrowthInputs default_params
      zeroOracle).cables_deployed, x = noGrowthInputs.initial_cables) ∧
    (∀ x ∈ (run_single_simulation noGrowthInputs default_params
      zeroOracle).team_size_total, x = noGrowthInputs.initial_team_size) :=
  c5_zero_growth_constant noGrowthInputs default_params zeroOracle rfl rfl rfl rfl

/-- Every entry the planning loop appends to the ghost enqueue log is
scheduled at `month + int(draw)`; when every deployment-time draw is
non-negative, the schedule is never before the enqueue month. -/
theorem planDeployments_log (I : SimulationInputs) (P : StochasticParameters)
    (o : Oracle) (month : ℕ)
    (hd : ∀ i, 0 ≤ o.normal i P.cable_deployment_time_months_mean
      P.cable_deployment_time_months_std) :
    ∀ (k : ℕ) (cash : ℚ) (queue : List (ℤ × ℚ)) (log : List (ℤ × ℤ)) (n : ℕ),
      (∀ e ∈ log, e.1 ≤ e.2) →
      ∀ e ∈ (planDeployments I P o month k cash queue log n).2.2.1, e.1 ≤ e.2 := by
  intro k
  induction k with
  | zero =>
      intro cash queue log n h
      simpa [planDeployments] using h
  | succ k ih =>
      intro cash queue log n h
      rw [planDeployments]
      apply ih
      intro e he
      rcases List.mem_append.mp he with h1 | h1
      · exact h e h1
      · rcases List.mem_singleton.mp h1 with rfl
        exact le_add_of_nonneg_right (ratTrunc_nonneg (hd n))

/-- One month body preserves the enqueue-log invariant: the settlement and
cost steps do not touch the log, and the planning step only appends
entries scheduled at or after the current month (given non-negative
deployment-time draws). -/
theorem monthCore_log (I : SimulationInputs) (P : StochasticParameters)
    (o : Oracle) (m : ℕ) (st : SimState) (out : SimulationOutputs)
    (hd : ∀ i, 0 ≤ o.normal i P.cable_deployment_time_months_mean
      P.cable_deployment_time_months_std)
    (h : ∀ e ∈ st.enqueue_log, e.1 ≤ e.2) :
    ∀ e ∈ (monthCore I P o m st out).1.enqueue_log, e.1 ≤ e.2 := by
  simp only [monthCore]
  split
  · exact planDeployments_log I P o m hd _ _ _ _ _ h
  · exact h

/-- C2 (amended): an enqueued deployment entry is scheduled at
`enqueue month + int(lead-time draw)`; whenever the drawn lead times are
non-negative — which the code does not enforce — every entry ever placed on
the deployment queue has scheduled month ≥ its enqueue month. -/
theorem c2_monotonic_lead_time (I : SimulationInputs)
    (P : StochasticParameters) (o : Oracle)
    (hd : ∀ i, 0 ≤ o.normal i P.cable_deployment_time_months_mean
      P.cable_deployment_time_months_std) :
    ∀ e ∈ (run_single_simulation_full I P o).1.enqueue_log, e.1 ≤ e.2 := by
  have main := simLoop_inv I P o (fun st => ∀ e ∈ st.enqueue_log, e.1 ≤ e.2)
    (fun _ => True)
    (fun m st out hs _ => ⟨by
      rw [monthStep_state]
      exact monthCore_log I P o m st out hd hs, trivial⟩)
    (List.range I.simulation_months.toNat) (initState I P o) emptyOutputs
    (by intro e he; simp [initState] at he) trivial
  rw [run_single_simulation_full]
  exact main.1

/-- C2 counterexample: under the configuration that plans exactly one
cable at month 6 and an oracle whose deployment-time draw is `-2` (a
possible draw from the unclamped normal distribution), the single queue
entry is enqueued at month 6 but scheduled for month 4: scheduled month <
enqueue month, refuting the claim for arbitrary stochastic draws. -/
theorem c2_counterexample :
    (run_single_simulation_full oneDeployInputs default_params
      negOracle).1.enqueue_log = [(6, 4)] ∧ ¬ ((6 : ℤ) ≤ 4) := by
  refine ⟨?_, by decide⟩
  with_unfolding_all decide

/-- C2 witness: under the all-zero oracle every deployment-time draw is
non-negative, and the amended theorem applies to the single entry
`(6, 6)` the same configuration enqueues. -/
theorem c2_witness : ((6 : ℤ), (6 : ℤ)).1 ≤ ((6 : ℤ), (6 : ℤ)).2 :=
  c2_monotonic_lead_time oneDeployInputs default_params zeroOracle
    (fun _ => le_refl 0) (6, 6) (by with_unfolding_all decide)

/-- All sixteen per-month output sequences have length `k`. -/
def recordedLen (out : SimulationOutputs) (k : ℕ) : Prop :=
  out.months.length = k ∧
  out.cables_deployed.length = k ∧
  out.customers_by_segment.length = k ∧
  out.total_customers.length = k ∧
  out.detection_accuracy.length = k ∧
  out.detections_per_day.length = k ∧
  out.system_uptime.length = k ∧
  out.regional_datacenters.length = k ∧
  out.team_size_total.length = k ∧
  out.team_by_role.length = k ∧
  out.revenue_monthly.length = k ∧
  out.costs_monthly.length = k ∧
  out.costs_breakdown.length = k ∧
  out.gross_margin.length = k ∧
  out.cash_remaining.length = k ∧
  out.arr.length = k

theorem length_append_one {α : Type} {l : List α} {x : α} {k : ℕ}
    (h : l.length = k) : (l ++ [x]).length = k + 1 := by
  simp [h]

/-- The month body appends exactly one snapshot entry to every per-month
output sequence. -/
theorem monthCore_recordedLen (I : SimulationInputs)
    (P : StochasticParameters) (o : Oracle) (m : ℕ) (st : SimState)
    (out : SimulationOutputs) (k : ℕ) (h : recordedLen out k) :
    recordedLen (monthCore I P o m st out).2 (k + 1) := by
  obtain ⟨h1, h2, h3, h4, h5, h6, h7, h8, h9, h10, h11, h12, h13, h14, h15, h16⟩ := h
  exact ⟨length_append_one h1, length_append_one h2, length_append_one h3,
    length_append_one h4, length_append_one h5, length_append_one h6,
    length_append_one h7, length_append_one h8, length_append_one h9,
    length_append_one h10, length_append_one h11, length_append_one h12,
    length_append_one h13, length_append_one h14, length_append_one h15,
    length_append_one h16⟩

theorem monthCore_months (I : SimulationInputs) (P : StochasticParameters)
    (o : Oracle) (m : ℕ) (st : SimState) (out : SimulationOutputs) :
    (monthCore I P o m st out).2.months = out.months ++ [m] := rfl

theorem monthCore_ran_out (I : SimulationInputs) (P : StochasticParameters)
    (o : Oracle) (m : ℕ) (st : SimState) (out : SimulationOutputs) :
    (monthCore I P o m st out).2.ran_out_of_cash = out.ran_out_of_cash := rfl

theorem monthCore_failure_month (I : SimulationInputs)
    (P : StochasticParameters) (o : Oracle) (m : ℕ) (st : SimState)
    (out : SimulationOutputs) :
    (monthCore I P o m st out).2.failure_month = out.failure_month := rfl

/-- One month either continues (outputs exactly those of the month body)
or breaks with the failure flag and the current month recorded. -/
theorem monthStep_cases (I : SimulationInputs) (P : StochasticParameters)
    (o : Oracle) (m : ℕ) (st : SimState) (out : SimulationOutputs) :
    ((monthStep I P o m st out).2.2 = false ∧
      (monthStep I P o m st out).2.1 = (monthCore I P o m st out).2) ∨
    ((monthStep I P o m st out).2.2 = true ∧
      (monthStep I P o m st out).2.1 =
        { (monthCore I P o m st out).2 with
          ran_out_of_cash := true, failure_month := some m }) := by
  rw [monthStep]
  split
  · right; exact ⟨rfl, rfl⟩
  · left; exact ⟨rfl, rfl⟩

/-- Main induction for C3: starting the loop at month `m` with consistent
outputs, the trial either finishes every remaining month with no failure
flag, or stops at some failure month `fm ≥ m` with months `0..fm` recorded
and every sequence of length `fm + 1`. -/
theorem c3_aux (I : SimulationInputs) (P : StochasticParameters) (o : Oracle) :
    ∀ (k m : ℕ) (st : SimState) (out : SimulationOutputs),
      out.months = List.range m → recordedLen out m →
      out.ran_out_of_cash = false → out.failure_month = none →
      ((simLoop I P o (List.range' m k) st out).2.ran_out_of_cash = false ∧
        (simLoop I P o (List.range' m k) st out).2.failure_month = none ∧
        (simLoop I P o (List.range' m k) st out).2.months = List.range (m + k) ∧
        recordedLen (simLoop I P o (List.range' m k) st out).2 (m + k)) ∨
      (∃ fm, (simLoop I P o (List.range' m k) st out).2.ran_out_of_cash = true ∧
        (simLoop I P o (List.range' m k) st out).2.failure_month = some fm ∧
        (simLoop I P o (List.range' m k) st out).2.months = List.range (fm + 1) ∧
        recordedLen (simLoop I P o (List.range' m k) st out).2 (fm + 1)) := by
  intro k
  induction k with
  | zero =>
      intro m st out hm hlen hro hf
      left
      rw [List.range']
      exact ⟨hro, hf, by rw [simLoop]; simpa using hm,
        by rw [simLoop]; simpa using hlen⟩
  | succ k ih =>
      intro m st out hm hlen hro hf
      rw [List.range']
      rw [simLoop]
      have hcm : (monthCore I P o m st out).2.months = List.range (m + 1) := by
        rw [monthCore_months, hm, List.range_succ]
      have hclen : recordedLen (monthCore I P o m st out).2 (m + 1) :=
        monthCore_recordedLen I P o m st out m hlen
      rcases monthStep_cases I P o m st out with ⟨hdead, hout⟩ | ⟨hdead, hout⟩
      · rw [hdead]
        simp only [Bool.false_eq_true, if_false]
        rw [hout]
        have := ih (m + 1) (monthStep I P o m st out).1 (monthCore I P o m st out).2
          hcm hclen (by rw [monthCore_ran_out]; exact hro)
          (by rw [monthCore_failure_month]; exact hf)
        rcases this with ⟨a, b, c, d⟩ | ⟨fm, a, b, c, d⟩
        · left
          refine ⟨a, b, ?_, ?_⟩
          · rw [c]; ring_nf
          · have : m + 1 + k = m + (k + 1) := by omega
            rw [this] at d; exact d
        · right; exact ⟨fm, a, b, c, d⟩
      · rw [hdead]
        simp only [if_true]
        right
        refine ⟨m, ?_, ?_, ?_, ?_⟩
        · rw [hout]
        · rw [hout]
        · rw [hout]
          show (monthCore I P o m st out).2.months = List.range (m + 1)
          exact hcm
        · rw [hout]
          exact hclen

/-- C3: terminal consistency.  If a trial ran out of cash, its failure
month is recorded, the recorded month indices are exactly `0..fm` (so `fm`
is the index of the last recorded month and nothing after the failure
month was simulated), and every per-month output sequence has length
exactly `fm + 1`. -/
theorem c3_terminal_consistency (I : SimulationInputs)
    (P : StochasticParameters) (o : Oracle)
    (h : (run_single_simulation I P o).ran_out_of_cash = true) :
    ∃ fm, (run_single_simulation I P o).failure_month = some fm ∧
      (run_single_simulation I P o).months = List.range (fm + 1) ∧
      recordedLen (run_single_simulation I P o) (fm + 1) := by
  have aux := c3_aux I P o I.simulation_months.toNat 0 (initState I P o)
    emptyOutputs rfl
    ⟨rfl, rfl, rfl, rfl, rfl, rfl, rfl, rfl, rfl, rfl, rfl, rfl, rfl, rfl, rfl, rfl⟩
    rfl rfl
  rw [run_single_simulation, run_single_simulation_full] at h ⊢
  rw [List.range_eq_range'] at h ⊢
  rcases aux with ⟨hro, _, _, _⟩ | ⟨fm, _, hf, hm, hk⟩
  · rw [hro] at h; cases h
  · exact ⟨fm, hf, hm, hk⟩

/-- C3 witness: the unfunded configuration fails at month 0, and the
theorem yields failure month 0 with singleton output sequences. -/
theorem c3_witness :
    ∃ fm, (run_single_simulation brokeInputs default_params
        zeroOracle).failure_month = some fm ∧
      (run_single_simulation brokeInputs default_params zeroOracle).months =
        List.range (fm + 1) ∧
      recordedLen (run_single_simulation brokeInputs default_params zeroOracle)
        (fm + 1) :=
  c3_terminal_consistency brokeInputs default_params zeroOracle
    (by with_unfolding_all decide)

/-- C8 witness: starting from outputs already flagged, one further
simulated month keeps the flag true. -/
theorem c8_witness :
    (simLoop default_inputs default_params zeroOracle [0]
      (initState default_inputs default_params zeroOracle)
      { emptyOutputs with series_b_qualified := true }).2.series_b_qualified = true :=
  (c8_series_b_persists default_inputs default_params zeroOracle).2 [0] _ _ rfl

/-- When every element's `profitability_month` is present, the crash-aware
sum is the sum of the present months, and there are as many months as
elements. -/
theorem sum_profitability_months_eq (l : List SimulationOutputs)
    (h : ∀ r ∈ l, (r.profitability_month).isSome) :
    sum_profitability_months l =
      some ((l.filterMap (·.profitability_month)).sum) ∧
    (l.filterMap (·.profitability_month)).length = l.length := by
  induction l with
  | nil => exact ⟨rfl, rfl⟩
  | cons r rest ih =>
      obtain ⟨m, hm⟩ := Option.isSome_iff_exists.mp (h r (List.mem_cons_self r rest))
      obtain ⟨ih1, ih2⟩ := ih (fun x hx => h x (List.mem_cons_of_mem r hx))
      rw [sum_profitability_months, hm, ih1]
      constructor
      · simp [List.filterMap_cons, hm]
      · simp [List.filterMap_cons, hm, ih2]

/-- C9: for a non-empty batch of trial outputs in which every
profitability-flagged trial carries its profitability month (as every
engine-produced trajectory does), the aggregator's average
months-to-profitability is exactly the spec's arithmetic mean of
`profitability_month` over the flagged trials, and the `None` absence
value when no trial achieved profitability. -/
theorem c9_avg_months_to_profitability (results : List SimulationOutputs)
    (_h1 : results ≠ [])
    (h2 : ∀ r ∈ results, r.profitability_achieved = true →
      (r.profitability_month).isSome) :
    avg_months_to_profitability results =
      some (spec_avg_months_to_profitability results) := by
  have hall : ∀ r ∈ results.filter (·.profitability_achieved),
      (r.profitability_month).isSome := by
    intro r hr
    have := List.mem_filter.mp hr
    exact h2 r this.1 this.2
  obtain ⟨hsum, hlen⟩ :=
    sum_profitability_months_eq (results.filter (·.profitability_achieved)) hall
  simp only [avg_months_to_profitability, spec_avg_months_to_profitability]
  by_cases hemp : (results.filter (·.profitability_achieved)).isEmpty
  · rw [if_pos hemp, if_pos hemp]
  · rw [if_neg hemp, if_neg hemp, hsum]
    dsimp only
    rw [← hlen, Nat.cast_list_sum]

/-- Sample trajectory that achieved profitability at month 3. -/
def achievedOut : SimulationOutputs :=
  { emptyOutputs with profitability_achieved := true, profitability_month := some 3 }

/-- C9 witness: on the concrete batch `[achievedOut, emptyOutputs]` the
aggregator value equals the spec mean. -/
theorem c9_witness :
    avg_months_to_profitability [achievedOut, emptyOutputs] =
      some (spec_avg_months_to_profitability [achievedOut, emptyOutputs]) :=
  c9_avg_months_to_profitability [achievedOut, emptyOutputs]
    (by simp) (by decide)

/-- Month 0 of the sales ramp: zero effectiveness, hence zero leads and,
for any draw sequence a real binomial generator can produce, zero newly
acquired customers in every segment. -/
theorem get_customer_acquisition_zero (P : StochasticParameters) {o : Oracle}
    (hv : o.Valid) (cables : ℤ) (n b : ℕ) :
    (get_customer_acquisition P o 0 cables n b).1 = zeroLedger := by
  have hramp : sales_effectiveness 0 = 0 := by
    norm_num [sales_effectiveness]
  have htr : ratTrunc 0 = 0 := by
    rw [ratTrunc]
    norm_num
  have hz : ∀ (i : ℕ) (p : ℚ), o.binom i 0 p = 0 := by
    intro i p
    exact Nat.le_zero.mp (hv i 0 p)
  rw [get_customer_acquisition]
  simp only [hramp, mul_zero, htr, hz]
  rfl

theorem addLedger_zero : addLedger zeroLedger zeroLedger = zeroLedger := rfl

/-- Churning an all-zero ledger leaves it all-zero (`max(0, 0 - k) = 0`). -/
theorem apply_churn_zero (P : StochasticParameters) (o : Oracle) (n b : ℕ) :
    (apply_churn P o zeroLedger n b).1 = zeroLedger := by
  rw [apply_churn]
  simp [zeroLedger]

/-- Revenue of an all-zero customer ledger is zero for any erosion value. -/
theorem calculate_revenue_zeroLedger (I : SimulationInputs)
    (P : StochasticParameters) (o : Oracle) (m : ℕ) :
    calculate_revenue I P o zeroLedger m = 0 := by
  rw [calculate_revenue]
  simp [zeroLedger]

/-- At month 0 with an all-zero customer ledger, the month body records
revenue `0` and the `-1` sentinel margin. -/
theorem monthCore_month0 (I : SimulationInputs) (P : StochasticParameters)
    (o : Oracle) (st : SimState) (out : SimulationOutputs) (hv : o.Valid)
    (hc : st.customers = zeroLedger) :
    (monthCore I P o 0 st out).2.revenue_monthly = out.revenue_monthly ++ [0] ∧
    (monthCore I P o 0 st out).2.gross_margin = out.gross_margin ++ [-1] := by
  have hgca : ∀ (cables : ℤ) (n b : ℕ),
      (get_customer_acquisition P o 0 cables n b).1 = zeroLedger :=
    fun cables n b => get_customer_acquisition_zero P hv cables n b
  simp only [monthCore, hc, hgca, addLedger_zero, apply_churn_zero,
    calculate_revenue_zeroLedger]
  norm_num

/-- C10: at month 0 the sales ramp is zero, so with any configuration no
customers are acquired in month 0 (the initial ledger is always zero),
the recorded month-0 revenue is exactly 0 and the recorded month-0 gross
margin is the `-1` sentinel. -/
theorem c10_month_zero (I : SimulationInputs) (P : StochasticParameters)
    (o : Oracle) (hv : o.Valid) (hm : 1 ≤ I.simulation_months) :
    sales_effectiveness 0 = 0 ∧
    (∀ (cables : ℤ) (n b : ℕ),
      (get_customer_acquisition P o 0 cables n b).1 = zeroLedger) ∧
    (run_single_simulation I P o).revenue_monthly.get? 0 = some 0 ∧
    (run_single_simulation I P o).gross_margin.get? 0 = some (-1) := by
  refine ⟨by norm_num [sales_effectiveness],
    fun cables n b => get_customer_acquisition_zero P hv cables n b, ?_⟩
  have hpres : ∀ m st out,
      (out.revenue_monthly.get? 0 = some 0 ∧
        out.gross_margin.get? 0 = some (-1)) →
      ((monthStep I P o m st out).2.1.revenue_monthly.get? 0 = some 0 ∧
        (monthStep I P o m st out).2.1.gross_margin.get? 0 = some (-1)) := by
    intro m st out h
    obtain ⟨r, c, e1, e2, e3⟩ := monthCore_margin I P o m st out
    constructor
    · rw [monthStep_out_revenue_monthly, e1]
      exact get?_append_left h.1
    · rw [monthStep_out_gross_margin, e3]
      exact get?_append_left h.2
  obtain ⟨k, hk⟩ : ∃ k, I.simulation_months.toNat = k + 1 :=
    ⟨I.simulation_months.toNat - 1, by omega⟩
  rw [run_single_simulation, run_single_simulation_full, hk,
    List.range_succ_eq_map]
  rw [simLoop]
  have hcore := monthCore_month0 I P o (initState I P o) emptyOutputs hv rfl
  have h0 : (monthStep I P o 0 (initState I P o) emptyOutputs).2.1.revenue_monthly.get? 0 =
        some 0 ∧
      (monthStep I P o 0 (initState I P o) emptyOutputs).2.1.gross_margin.get? 0 =
        some (-1) := by
    constructor
    · rw [monthStep_out_revenue_monthly, hcore.1]; rfl
    · rw [monthStep_out_gross_margin, hcore.2]; rfl
  split
  · exact h0
  · exact (simLoop_inv I P o (fun _ => True)
      (fun out => out.revenue_monthly.get? 0 = some 0 ∧
        out.gross_margin.get? 0 = some (-1))
      (fun m st out _ h => ⟨trivial, hpres m st out h⟩)
      _ _ _ trivial h0).2

/-- C10 witness: the default configuration under the all-zero oracle (a
valid draw sequence) has zero month-0 revenue and sentinel margin. -/
theorem c10_witness :
    sales_effectiveness 0 = 0 ∧
    (∀ (cables : ℤ) (n b : ℕ),
      (get_customer_acquisition default_params zeroOracle 0 cables n b).1 =
        zeroLedger) ∧
    (run_single_simulation default_inputs default_params
      zeroOracle).revenue_monthly.get? 0 = some 0 ∧
    (run_single_simulation default_inputs default_params
      zeroOracle).gross_margin.get? 0 = some (-1) :=
  c10_month_zero default_inputs default_params zeroOracle
    (fun _ _ _ => Nat.zero_le _) (by decide)

end DasMonteCarlo
